import Mathlib

/-!
Verification of the OBJ mesh-viewer core (loader, triangulator, camera
controller) against its specification.

The program is a small Python/OpenGL mesh viewer.  Its core logic is:

* `load_obj` — a line-oriented parser producing a vertex list and a face list;
* `compile_display_list` — emission of a flat triangle-vertex stream, fan
  triangulating faces with more than three indices;
* `update_camera` — a per-tick camera position update driven by six boolean
  directional inputs.

Strings are modelled as lists of characters; Python `float` values are
modelled as exact rationals (the decimal-literal fragment of Python's float
syntax, which is the only fragment the loader can meet in a geometry file);
Python runtime exceptions (`ValueError` from `float`/`int` conversion,
`IndexError` from list indexing) are modelled by an `Except` result.
-/

namespace ObjViewer

/-- A line of the input file, as a list of characters (without the trailing
newline; the source strips each line before splitting, so the newline is
irrelevant). -/
abbrev Line := List Char

/-- `startsWith2 l c₁ c₂` models Python `line.startswith(s)` for the
two-character prefixes `"v "` and `"f "` used by the loader. -/
def startsWith2 (l : Line) (c₁ c₂ : Char) : Bool :=
  match l with
  | a :: b :: _ => a == c₁ && b == c₂
  | _ => false

/-- Accumulator-passing worker for `words`. -/
def wordsAux : List Char → List Char → List (List Char)
  | [], acc => if acc.isEmpty then [] else [acc.reverse]
  | c :: cs, acc =>
    if c.isWhitespace then
      if acc.isEmpty then wordsAux cs [] else acc.reverse :: wordsAux cs []
    else wordsAux cs (c :: acc)

/-- Models Python `line.strip().split()`: split on runs of whitespace,
dropping empty fields (leading/trailing whitespace hence has no effect,
which also absorbs the `strip`). -/
def words (l : List Char) : List (List Char) :=
  wordsAux l []

/-- Numeric value of a digit string (most significant digit first). -/
def natOfDigits (ds : List Char) : ℕ :=
  ds.foldl (fun n c => 10 * n + (c.toNat - 48)) 0

/-- A non-empty string of decimal digits. -/
def allDigits (ds : List Char) : Bool :=
  !ds.isEmpty && ds.all Char.isDigit

/-- Models Python `int(tok)` on a bare token: an optional sign followed by a
non-empty run of digits; anything else raises `ValueError` (here: `none`). -/
def pyIntZ? (tok : List Char) : Option ℤ :=
  match tok with
  | [] => none
  | c :: ds =>
    if c = '-' then (if allDigits ds then some (-(natOfDigits ds : ℤ)) else none)
    else if c = '+' then (if allDigits ds then some ((natOfDigits ds : ℤ)) else none)
    else if allDigits (c :: ds) then some ((natOfDigits (c :: ds) : ℤ)) else none

/-- Digits of the mantissa of a float literal: `digits [ '.' digits ]` with at
least one digit overall.  Returns the concatenated digit value together with
the number of fractional digits. -/
def mantissaDigits? (mant : List Char) : Option (ℕ × ℕ) :=
  let ip := mant.takeWhile (· != '.')
  let rest := mant.dropWhile (· != '.')
  match rest with
  | [] => if allDigits ip then some (natOfDigits ip, 0) else none
  | _ :: fp =>
    if (ip.all Char.isDigit && fp.all Char.isDigit) && !(ip.isEmpty && fp.isEmpty) then
      some (natOfDigits (ip ++ fp), fp.length)
    else none

/-- Value of an unsigned float literal `mantissa [ ('e'|'E') exponent ]`,
as the exact rational mantissa × 10^exponent. -/
def unsignedFloatQ? (tok : List Char) : Option ℚ :=
  let mant := tok.takeWhile (fun c => c != 'e' && c != 'E')
  let erest := tok.dropWhile (fun c => c != 'e' && c != 'E')
  let expPart : Option ℤ :=
    match erest with
    | [] => some 0
    | _ :: es => pyIntZ? es
  match mantissaDigits? mant, expPart with
  | some md, some ex =>
    let shift : ℤ := ex - md.2
    some (if 0 ≤ shift then ((md.1 * 10 ^ shift.toNat : ℕ) : ℚ)
          else mkRat (md.1 : ℤ) (10 ^ (-shift).toNat))
  | _, _ => none

/-- Models Python `float(tok)` on the decimal-literal fragment of its input
syntax (optional sign, digits, optional fraction, optional exponent), as an
exact rational.  Anything else raises `ValueError` (here: `none`). -/
def pyFloatQ? (tok : List Char) : Option ℚ :=
  match tok with
  | '-' :: rest => (unsignedFloatQ? rest).map (fun q => -q)
  | '+' :: rest => unsignedFloatQ? rest
  | _ => unsignedFloatQ? tok

/-- The Python runtime exceptions the modelled code can raise: `ValueError`
from `float`/`int` conversion and `IndexError` from list indexing. -/
inductive PyError
  | valueError
  | indexError
deriving DecidableEq

deriving instance DecidableEq for Except

/-- Effectful map over a list in the `Except` monad, failing at the first
failing element — the evaluation order of a Python list comprehension /
loop over conversions. -/
def exMapM {α β : Type} (f : α → Except PyError β) : List α → Except PyError (List β)
  | [] => .ok []
  | x :: xs => do
    let b ← f x
    let bs ← exMapM f xs
    pure (b :: bs)

/-- Models `list(map(float, parts[1:4]))` of the source: the fields after the
`v` token, capped at three, each converted by `float`. -/
def parseVertex (parts : List (List Char)) : Except PyError (List ℚ) :=
  exMapM (fun p =>
    match pyFloatQ? p with
    | some q => .ok q
    | none => .error .valueError) ((parts.drop 1).take 3)

/-- Models `int(p.split('/')[0]) - 1` of the source: the portion of the index
descriptor before the first `/` (the whole descriptor when there is none),
converted as a 1-based integer and shifted to a 0-based index. -/
def parseFaceIndex (p : List Char) : Except PyError ℤ :=
  match pyIntZ? (p.takeWhile (· != '/')) with
  | some n => .ok (n - 1)
  | none => .error .valueError

/-- Models the face list comprehension of the source: every field after the
`f` token becomes a stored 0-based index. -/
def parseFace (parts : List (List Char)) : Except PyError (List ℤ) :=
  exMapM parseFaceIndex (parts.drop 1)

/-- The OBJ loader `load_obj` of the source, over the lines of the file:
lines starting with `"v "` are vertex definitions, lines starting with
`"f "` are face definitions, every other line is skipped.  No validation
beyond the numeric conversions is performed. -/
def load_obj : List Line → Except PyError (List (List ℚ) × List (List ℤ))
  | [] => .ok ([], [])
  | line :: rest =>
    if startsWith2 line 'v' ' ' then do
      let v ← parseVertex (words line)
      let vf ← load_obj rest
      pure (v :: vf.1, vf.2)
    else if startsWith2 line 'f' ' ' then do
      let f ← parseFace (words line)
      let vf ← load_obj rest
      pure (vf.1, f :: vf.2)
    else load_obj rest

/-- Python list indexing `l[i]`: a non-negative index is positional and must
be below the length; a negative index counts from the end of the list
(`l[-1]` is the last element); anything else raises `IndexError` (here:
`none`). -/
def pyGet {α : Type} (l : List α) (i : ℤ) : Option α :=
  let j : ℤ := if i < 0 then (l.length : ℤ) + i else i
  if 0 ≤ j then l[j.toNat]? else none

/-- `vertices[i]` of the source: Python indexing into the vertex list, with
`IndexError` on failure. -/
def lookupVertex (vs : List (List ℚ)) (i : ℤ) : Except PyError (List ℚ) :=
  match pyGet vs i with
  | some v => .ok v
  | none => .error .indexError

/-- A triangle, as the three stored vertex indices it draws. -/
abbrev Tri := ℤ × ℤ × ℤ

/-- The triangle structure emitted by the face loop of
`compile_display_list`: a three-index face is emitted unchanged; any other
face is fan triangulated, triangle `i` (for `i = 1 .. N−2`) being
`(face[0], face[i], face[i+1])`.  (For faces of fewer than three indices the
loop bound `N−2` is zero, so nothing is emitted.) -/
def fanTriangles (face : List ℤ) : List Tri :=
  if face.length = 3 then
    [(face.getD 0 0, face.getD 1 0, face.getD 2 0)]
  else
    (List.range' 1 (face.length - 2)).map
      (fun i => (face.getD 0 0, face.getD i 0, face.getD (i + 1) 0))

/-- The full triangle stream of a face list, in file order. -/
def triangulate (faces : List (List ℤ)) : List Tri :=
  (faces.map fanTriangles).flatten

/-- Resolution of one triangle's indices against the vertex list, in the
order the source issues its three `glVertex3fv(vertices[...])` calls. -/
def resolveTri (vs : List (List ℚ)) (t : Tri) : Except PyError (List (List ℚ)) := do
  let a ← lookupVertex vs t.1
  let b ← lookupVertex vs t.2.1
  let c ← lookupVertex vs t.2.2
  pure [a, b, c]

/-- The per-face body of the `compile_display_list` loop: the flat stream of
vertex positions passed to `glVertex3fv`, or the first `IndexError` raised
by `vertices[...]`. -/
def emitFace (vs : List (List ℚ)) (face : List ℤ) : Except PyError (List (List ℚ)) :=
  if face.length = 3 then
    exMapM (lookupVertex vs) face
  else
    (exMapM (fun i => resolveTri vs (face.getD 0 0, face.getD i 0, face.getD (i + 1) 0))
      (List.range' 1 (face.length - 2))).map List.flatten

/-- `compile_display_list` of the source, modelled as the flat vertex stream
submitted between `glBegin(GL_TRIANGLES)` and `glEnd`, or the first
`IndexError` raised while resolving a face index. -/
def compile_display_list (vs : List (List ℚ)) (faces : List (List ℤ)) :
    Except PyError (List (List ℚ)) :=
  (exMapM (emitFace vs) faces).map List.flatten

/-- Camera positions and direction vectors, as real 3-vectors. -/
abbrev Vec3 := ℝ × ℝ × ℝ

/-- `dir_to_center` of the source: the vector from the camera position to the
origin `(0,0,0)`. -/
def dir_to_center (p : Vec3) : Vec3 :=
  (-p.1, -p.2.1, -p.2.2)

/-- `math.sqrt(sum(d * d for d in v))` of the source: the Euclidean length of
a 3-vector (for a position, its distance to the origin). -/
noncomputable def vec_length (v : Vec3) : ℝ :=
  Real.sqrt (v.1 * v.1 + v.2.1 * v.2.1 + v.2.2 * v.2.2)

open Classical in
/-- `norm_dir` of the source: the direction to the origin normalized to unit
length, or the zero vector when the length is zero (camera exactly at the
origin). -/
noncomputable def norm_dir (p : Vec3) : Vec3 :=
  let dir := dir_to_center p
  let length := vec_length dir
  if length = 0 then (0, 0, 0)
  else (dir.1 / length, dir.2.1 / length, dir.2.2 / length)

/-- The per-tick snapshot of the six directional inputs
(`pygame.key.get_pressed()` restricted to the six keys the source reads). -/
structure Keys where
  keyW : Bool
  keyS : Bool
  keyQ : Bool
  keyE : Bool
  keyA : Bool
  keyD : Bool

/-- No key held. -/
def noKeys : Keys := ⟨false, false, false, false, false, false⟩

/-- Only the forward key (`W`) held. -/
def forwardOnly : Keys := ⟨true, false, false, false, false, false⟩

/-- `update_camera` of the source: one tick of the camera controller.  The
direction to the origin is computed once from the incoming position, then
the six key conditionals update the position in the source's fixed order
(forward, backward, up, down, left, right). -/
noncomputable def update_camera (keys : Keys) (camera_pos : Vec3) (speed : ℝ) : Vec3 :=
  let nd := norm_dir camera_pos
  let p1 :=
    if keys.keyW then
      (camera_pos.1 + nd.1 * speed, camera_pos.2.1 + nd.2.1 * speed,
        camera_pos.2.2 + nd.2.2 * speed)
    else camera_pos
  let p2 :=
    if keys.keyS then (p1.1 - nd.1 * speed, p1.2.1 - nd.2.1 * speed, p1.2.2 - nd.2.2 * speed)
    else p1
  let p3 := if keys.keyQ then (p2.1, p2.2.1 + speed, p2.2.2) else p2
  let p4 := if keys.keyE then (p3.1, p3.2.1 - speed, p3.2.2) else p3
  let p5 := if keys.keyA then (p4.1 + speed, p4.2.1, p4.2.2) else p4
  let p6 := if keys.keyD then (p5.1 - speed, p5.2.1, p5.2.2) else p5
  p6

/-- The six directional inputs, as abstract labels used to talk about the
order in which their position deltas are applied. -/
inductive Dir
  | fwd
  | back
  | up
  | down
  | left
  | right
deriving DecidableEq

/-- The fixed order in which the source's conditionals apply the six deltas. -/
def canonicalOrder : List Dir :=
  [.fwd, .back, .up, .down, .left, .right]

/-- The position delta contributed by one directional input in one tick,
given the tick's (single) normalized direction-to-center `nd`: zero when the
key is not held, otherwise the additive update of the corresponding
conditional of `update_camera`. -/
noncomputable def inputDelta (keys : Keys) (nd : Vec3) (speed : ℝ) : Dir → Vec3
  | .fwd => if keys.keyW then (nd.1 * speed, nd.2.1 * speed, nd.2.2 * speed) else (0, 0, 0)
  | .back =>
    if keys.keyS then (-(nd.1 * speed), -(nd.2.1 * speed), -(nd.2.2 * speed)) else (0, 0, 0)
  | .up => if keys.keyQ then (0, speed, 0) else (0, 0, 0)
  | .down => if keys.keyE then (0, -speed, 0) else (0, 0, 0)
  | .left => if keys.keyA then (speed, 0, 0) else (0, 0, 0)
  | .right => if keys.keyD then (-speed, 0, 0) else (0, 0, 0)

/-- Application of the six per-input deltas in an arbitrary order `order`,
the direction-to-center being read once from the tick's starting position
`p` (as in the source). -/
noncomputable def applyDeltas (keys : Keys) (p : Vec3) (speed : ℝ) (order : List Dir) : Vec3 :=
  order.foldl (fun pos d => pos + inputDelta keys (norm_dir p) speed d) p

/-- The quad file of the end-to-end scenario: four vertices and one
four-index face. -/
def quadFile : List Line :=
  [("v 0 0 0").toList, ("v 1 0 0").toList, ("v 0 1 0").toList,
    ("v 1 1 0").toList, ("f 1 2 3 4").toList]

/-- The vertex list the quad file loads to. -/
def quadVertices : List (List ℚ) :=
  [[0, 0, 0], [1, 0, 0], [0, 1, 0], [1, 1, 0]]

/-- The quad file with its face replaced by `f 1 2 99`, whose third resolved
index 98 is out of range for the four vertices. -/
def badFile : List Line :=
  [("v 0 0 0").toList, ("v 1 0 0").toList, ("v 0 1 0").toList,
    ("v 1 1 0").toList, ("f 1 2 99").toList]

/-- A file whose face uses the index descriptor `0`: three vertices and the
face `f 1 2 0`. -/
def negFile : List Line :=
  [("v 0 0 0").toList, ("v 1 0 0").toList, ("v 2 0 0").toList, ("f 1 2 0").toList]

/-- The vertex list the `negFile` loads to. -/
def negVertices : List (List ℚ) :=
  [[0, 0, 0], [1, 0, 0], [2, 0, 0]]

/-- A small well-formed file with one vertex line, one face line and two
ignored lines. -/
def demoFile : List Line :=
  [("v 0 0 0").toList, ("# hello").toList, ("f 1 1 1").toList, ("vt 3 3").toList]

/-- The vertex list the `demoFile` loads to. -/
def demoVs : List (List ℚ) := [[0, 0, 0]]

/-- The face list the `demoFile` loads to. -/
def demoFs : List (List ℤ) := [[0, 0, 0]]

/-! ## Helper lemmas -/

/-- Folding additive updates over a list lands at the start plus the sum of
the updates. -/
theorem foldl_add_eq {α : Type} (f : α → Vec3) :
    ∀ (l : List α) (init : Vec3), l.foldl (fun pos d => pos + f d) init = init + (l.map f).sum
  | [], init => by simp
  | x :: xs, init => by
    rw [List.foldl_cons, foldl_add_eq f xs (init + f x)]
    simp [add_assoc]

/-- Applying the six deltas in the source's fixed order is exactly
`update_camera`. -/
theorem applyDeltas_canonical (keys : Keys) (p : Vec3) (speed : ℝ) :
    applyDeltas keys p speed canonicalOrder = update_camera keys p speed := by
  rcases keys with ⟨kw, ks, kq, ke, ka, kd⟩
  cases kw <;> cases ks <;> cases kq <;> cases ke <;> cases ka <;> cases kd <;>
    simp [applyDeltas, canonicalOrder, inputDelta, update_camera, Prod.ext_iff] <;>
    ring_nf <;> simp [add_comm, add_assoc, add_left_comm]

/-- The length of the direction-to-center equals the distance of the camera
to the origin. -/
theorem vec_length_dir_to_center (p : Vec3) :
    vec_length (dir_to_center p) = vec_length p := by
  unfold vec_length dir_to_center
  congr 1
  ring

/-- Distance of the scenario start position `(0, 0, 10)` to the origin. -/
theorem vec_length_ten : vec_length ((0 : ℝ), (0 : ℝ), (10 : ℝ)) = 10 := by
  have h : (0 : ℝ) * 0 + 0 * 0 + 10 * 10 = 10 ^ 2 := by norm_num
  rw [vec_length, h, Real.sqrt_sq (by norm_num)]

/-! ## Claim theorems -/

/-- Claim C6: for every camera position and every subset of the six
directional inputs held in one tick, the final position is independent of
the order in which the six per-input deltas are applied: applying them in
any permutation of the source's fixed order returns exactly
`update_camera`'s result, because the direction vector is read once at the
start of the tick and all six updates are additive. -/
theorem spec_C6 (keys : Keys) (p : Vec3) (speed : ℝ) (order : List Dir)
    (h : order.Perm canonicalOrder) :
    applyDeltas keys p speed order = update_camera keys p speed := by
  rw [← applyDeltas_canonical keys p speed]
  unfold applyDeltas
  rw [foldl_add_eq, foldl_add_eq,
    (h.map (inputDelta keys (norm_dir p) speed)).sum_eq]

/-- Witness for C6: the fully reversed application order, at a concrete
position and key set, lands exactly where `update_camera` does. -/
theorem spec_C6_witness :
    ([Dir.right, .left, .down, .up, .back, .fwd].Perm canonicalOrder) ∧
    applyDeltas ⟨true, true, false, true, false, true⟩ ((1 : ℝ), (2 : ℝ), (3 : ℝ)) (1 / 2)
        [Dir.right, .left, .down, .up, .back, .fwd] =
      update_camera ⟨true, true, false, true, false, true⟩ ((1 : ℝ), (2 : ℝ), (3 : ℝ)) (1 / 2) :=
  ⟨by decide, spec_C6 _ _ _ _ (by decide)⟩

/-- Claim C7: at the degenerate position `(0,0,0)` the normalization guard
yields the zero direction vector, so for any combination of held inputs the
tick only applies the axis-aligned up/down/left/right deltas — the
forward/backward inputs contribute nothing, and the result is the same as
if they were not held at all. -/
theorem spec_C7 (keys : Keys) (speed : ℝ) :
    norm_dir ((0 : ℝ), (0 : ℝ), (0 : ℝ)) = (0, 0, 0) ∧
    update_camera keys ((0 : ℝ), (0 : ℝ), (0 : ℝ)) speed =
      ((if keys.keyA then speed else 0) - (if keys.keyD then speed else 0),
        (if keys.keyQ then speed else 0) - (if keys.keyE then speed else 0), 0) ∧
    update_camera keys ((0 : ℝ), (0 : ℝ), (0 : ℝ)) speed =
      update_camera ⟨false, false, keys.keyQ, keys.keyE, keys.keyA, keys.keyD⟩
        ((0 : ℝ), (0 : ℝ), (0 : ℝ)) speed := by
  have hnd : norm_dir ((0 : ℝ), (0 : ℝ), (0 : ℝ)) = (0, 0, 0) := by
    simp [norm_dir, dir_to_center, vec_length]
  have hnd0 : norm_dir (0 : Vec3) = ((0 : ℝ), (0 : ℝ), (0 : ℝ)) := by
    simp [norm_dir, dir_to_center, vec_length]
  refine ⟨hnd, ?_, ?_⟩ <;>
    rcases keys with ⟨kw, ks, kq, ke, ka, kd⟩ <;>
    cases kw <;> cases ks <;> cases kq <;> cases ke <;> cases ka <;> cases kd <;>
    simp [update_camera, hnd, hnd0, Prod.ext_iff]

/-- One tick with only the forward key held adds `norm_dir × speed` to the
position. -/
theorem update_camera_forward (p : Vec3) (speed : ℝ) :
    update_camera forwardOnly p speed =
      (p.1 + (norm_dir p).1 * speed, p.2.1 + (norm_dir p).2.1 * speed,
        p.2.2 + (norm_dir p).2.2 * speed) := by
  simp [update_camera, forwardOnly]

/-- `vec_length` on an explicit triple. -/
theorem vec_length_mk (x y z : ℝ) :
    vec_length (x, y, z) = Real.sqrt (x * x + y * y + z * z) := rfl

/-- `dir_to_center` on an explicit triple. -/
theorem dir_to_center_mk (x y z : ℝ) : dir_to_center (x, y, z) = (-x, -y, -z) := rfl

/-- `norm_dir` on an explicit triple, away from the origin. -/
theorem norm_dir_pos (x y z : ℝ) (h : Real.sqrt (-x * -x + -y * -y + -z * -z) ≠ 0) :
    norm_dir (x, y, z) =
      (-x / Real.sqrt (-x * -x + -y * -y + -z * -z),
        -y / Real.sqrt (-x * -x + -y * -y + -z * -z),
        -z / Real.sqrt (-x * -x + -y * -y + -z * -z)) := by
  rw [norm_dir]
  simp only [dir_to_center, vec_length]
  rw [if_neg h]

/-- When the direction to the center has non-zero length, its normalization
has unit length. -/
theorem vec_length_norm_dir (p : Vec3) (h : vec_length (dir_to_center p) ≠ 0) :
    vec_length (norm_dir p) = 1 := by
  obtain ⟨x, y, z⟩ := p
  simp only [dir_to_center_mk, vec_length_mk] at h
  have hS : (0 : ℝ) ≤ -x * -x + -y * -y + -z * -z := by
    nlinarith [mul_self_nonneg x, mul_self_nonneg y, mul_self_nonneg z]
  have hS0 : -x * -x + -y * -y + -z * -z ≠ 0 := fun h0 => h (by rw [h0, Real.sqrt_zero])
  rw [norm_dir_pos x y z h, vec_length_mk]
  have hfrac : -x / Real.sqrt (-x * -x + -y * -y + -z * -z) *
        (-x / Real.sqrt (-x * -x + -y * -y + -z * -z)) +
      -y / Real.sqrt (-x * -x + -y * -y + -z * -z) *
        (-y / Real.sqrt (-x * -x + -y * -y + -z * -z)) +
      -z / Real.sqrt (-x * -x + -y * -y + -z * -z) *
        (-z / Real.sqrt (-x * -x + -y * -y + -z * -z)) =
      (-x * -x + -y * -y + -z * -z) /
        (Real.sqrt (-x * -x + -y * -y + -z * -z) * Real.sqrt (-x * -x + -y * -y + -z * -z)) := by
    field_simp
  rw [hfrac, Real.mul_self_sqrt hS, div_self hS0, Real.sqrt_one]

/-- One tick with only the forward key held, on an explicit triple. -/
theorem update_camera_forward_mk (x y z speed : ℝ) :
    update_camera forwardOnly (x, y, z) speed =
      (x + (norm_dir (x, y, z)).1 * speed, y + (norm_dir (x, y, z)).2.1 * speed,
        z + (norm_dir (x, y, z)).2.2 * speed) := by
  simp [update_camera, forwardOnly]

/-- One forward tick from distance at least `speed` lands at exactly `speed`
less distance from the origin. -/
theorem vec_length_forward (p : Vec3) (speed : ℝ) (hs : 0 < speed)
    (hsl : speed ≤ vec_length p) :
    vec_length (update_camera forwardOnly p speed) = vec_length p - speed := by
  obtain ⟨x, y, z⟩ := p
  rw [vec_length_mk] at hsl ⊢
  have hS : (0 : ℝ) ≤ x * x + y * y + z * z := by
    nlinarith [mul_self_nonneg x, mul_self_nonneg y, mul_self_nonneg z]
  have hLpos : 0 < Real.sqrt (x * x + y * y + z * z) := lt_of_lt_of_le hs hsl
  have hL0 : Real.sqrt (x * x + y * y + z * z) ≠ 0 := ne_of_gt hLpos
  have hneg : Real.sqrt (-x * -x + -y * -y + -z * -z) = Real.sqrt (x * x + y * y + z * z) := by
    congr 1
    ring
  have hnd := norm_dir_pos x y z (by rw [hneg]; exact hL0)
  rw [update_camera_forward_mk, hnd]
  dsimp only
  rw [hneg, vec_length_mk]
  have hL2 : Real.sqrt (x * x + y * y + z * z) * Real.sqrt (x * x + y * y + z * z) =
      x * x + y * y + z * z := Real.mul_self_sqrt hS
  have hkey : (x + -x / Real.sqrt (x * x + y * y + z * z) * speed) *
        (x + -x / Real.sqrt (x * x + y * y + z * z) * speed) +
      (y + -y / Real.sqrt (x * x + y * y + z * z) * speed) *
        (y + -y / Real.sqrt (x * x + y * y + z * z) * speed) +
      (z + -z / Real.sqrt (x * x + y * y + z * z) * speed) *
        (z + -z / Real.sqrt (x * x + y * y + z * z) * speed) =
      ((Real.sqrt (x * x + y * y + z * z) - speed) / Real.sqrt (x * x + y * y + z * z)) ^ 2 *
        (x * x + y * y + z * z) := by
    have hS0 : x * x + y * y + z * z ≠ 0 := fun h0 => hL0 (by rw [h0, Real.sqrt_zero])
    field_simp
    ring
  rw [hkey, Real.sqrt_mul (sq_nonneg _), Real.sqrt_sq_eq_abs,
    abs_of_nonneg (div_nonneg (by linarith) (le_of_lt hLpos))]
  field_simp

/-- Claim C4: one tick computes the direction to the origin, normalizes it
when its magnitude is non-zero (and uses the zero vector otherwise); with no
input held the position is returned unchanged; with only the forward input
held the result is `p + D × speed`, which moves the camera strictly closer
to the origin by exactly `speed` units whenever `0 < speed ≤ distance`. -/
theorem spec_C4 (p : Vec3) (speed : ℝ) :
    update_camera noKeys p speed = p ∧
    update_camera forwardOnly p speed =
      (p.1 + (norm_dir p).1 * speed, p.2.1 + (norm_dir p).2.1 * speed,
        p.2.2 + (norm_dir p).2.2 * speed) ∧
    (vec_length (dir_to_center p) = 0 → norm_dir p = (0, 0, 0)) ∧
    (vec_length (dir_to_center p) ≠ 0 → vec_length (norm_dir p) = 1) ∧
    (0 < speed → speed ≤ vec_length p →
      vec_length (update_camera forwardOnly p speed) = vec_length p - speed ∧
      vec_length (update_camera forwardOnly p speed) < vec_length p) := by
  refine ⟨by simp [update_camera, noKeys], update_camera_forward p speed, ?_, fun h =>
    vec_length_norm_dir p h, fun hs hsl => ⟨vec_length_forward p speed hs hsl, ?_⟩⟩
  · intro h
    rw [norm_dir]
    simp only [dir_to_center] at h ⊢
    rw [if_pos h]
  · rw [vec_length_forward p speed hs hsl]
    linarith

/-- Witness for C4: the scenario of the specification, starting at
`(0, 0, 10)` with speed `0.5`: no input leaves the position unchanged, and a
forward tick lands exactly `0.5` closer to the origin. -/
theorem spec_C4_witness :
    update_camera noKeys ((0 : ℝ), (0 : ℝ), (10 : ℝ)) (1 / 2) = ((0 : ℝ), (0 : ℝ), (10 : ℝ)) ∧
    vec_length (update_camera forwardOnly ((0 : ℝ), (0 : ℝ), (10 : ℝ)) (1 / 2)) =
      vec_length ((0 : ℝ), (0 : ℝ), (10 : ℝ)) - 1 / 2 ∧
    vec_length (update_camera forwardOnly ((0 : ℝ), (0 : ℝ), (10 : ℝ)) (1 / 2)) <
      vec_length ((0 : ℝ), (0 : ℝ), (10 : ℝ)) := by
  have h1 : (0 : ℝ) < 1 / 2 := by norm_num
  have h2 : (1 : ℝ) / 2 ≤ vec_length ((0 : ℝ), (0 : ℝ), (10 : ℝ)) := by
    rw [vec_length_ten]
    norm_num
  exact ⟨(spec_C4 ((0 : ℝ), (0 : ℝ), (10 : ℝ)) (1 / 2)).1,
    ((spec_C4 ((0 : ℝ), (0 : ℝ), (10 : ℝ)) (1 / 2)).2.2.2.2 h1 h2).1,
    ((spec_C4 ((0 : ℝ), (0 : ℝ), (10 : ℝ)) (1 / 2)).2.2.2.2 h1 h2).2⟩

/-- Binding a failed computation propagates the failure. -/
theorem bind_error {α β : Type} (e : PyError) (f : α → Except PyError β) :
    (Except.error e : Except PyError α) >>= f = .error e := rfl

/-- Binding a successful computation applies the continuation. -/
theorem bind_ok {α β : Type} (a : α) (f : α → Except PyError β) :
    (Except.ok a : Except PyError α) >>= f = f a := rfl

/-- Mapping over a failed computation propagates the failure. -/
theorem map_error {α β : Type} (e : PyError) (f : α → β) :
    (Except.error e : Except PyError α).map f = .error e := rfl

/-- Mapping over a successful computation applies the function. -/
theorem map_ok {α β : Type} (a : α) (f : α → β) :
    (Except.ok a : Except PyError α).map f = .ok (f a) := rfl

/-- `exMapM` over a mapped list. -/
theorem exMapM_map {α β γ : Type} (g : β → Except PyError γ) (f : α → β) :
    ∀ l : List α, exMapM g (l.map f) = exMapM (fun x => g (f x)) l
  | [] => rfl
  | x :: xs => by rw [List.map_cons, exMapM, exMapM, exMapM_map g f xs]

/-- The vertex stream `compile_display_list` emits for one face is exactly
the resolution of the face's `fanTriangles`, triangle by triangle — the
index-level triangle model matches the source's emission loop. -/
theorem emitFace_eq (vs : List (List ℚ)) (face : List ℤ) :
    emitFace vs face = (exMapM (resolveTri vs) (fanTriangles face)).map List.flatten := by
  by_cases h3 : face.length = 3
  · obtain ⟨a, b, c, rfl⟩ := List.length_eq_three.mp h3
    rw [emitFace, if_pos h3, fanTriangles, if_pos h3]
    cases ha : lookupVertex vs a <;> cases hb : lookupVertex vs b <;>
      cases hc : lookupVertex vs c <;>
      simp [exMapM, resolveTri, ha, hb, hc, bind_error, bind_ok, map_error, map_ok, List.getD]
  · rw [emitFace, if_neg h3, fanTriangles, if_neg h3, exMapM_map]

/-- A three-index face is one triangle, its vertex order preserved. -/
theorem fanTriangles_three (a b c : ℤ) : fanTriangles [a, b, c] = [(a, b, c)] := by
  simp [fanTriangles, List.getD]

/-- A face of more than three indices fans into the triangles
`(face[0], face[i], face[i+1])` for `i = 1 .. N−2`, in that order. -/
theorem fanTriangles_fan (face : List ℤ) (h : 3 < face.length) :
    fanTriangles face =
      (List.range' 1 (face.length - 2)).map
        (fun i => (face.getD 0 0, face.getD i 0, face.getD (i + 1) 0)) := by
  rw [fanTriangles, if_neg (by omega)]

/-- A face of at least three indices produces exactly `arity − 2`
triangles. -/
theorem fanTriangles_length (face : List ℤ) (_h : 3 ≤ face.length) :
    (fanTriangles face).length = face.length - 2 := by
  by_cases h3 : face.length = 3
  · rw [fanTriangles, if_pos h3]
    simp [h3]
  · rw [fanTriangles, if_neg h3]
    simp

/-- Every emitted triangle of a face starts at the face's first index. -/
theorem fanTriangles_fst (face : List ℤ) : ∀ t ∈ fanTriangles face, t.1 = face.getD 0 0 := by
  intro t ht
  rw [fanTriangles] at ht
  split at ht
  · simp only [List.mem_singleton] at ht
    rw [ht]
  · obtain ⟨i, _, rfl⟩ := List.mem_map.mp ht
    rfl

/-- The triangle stream of a face list of arities at least three has length
the sum of `arity − 2` over the faces. -/
theorem triangulate_length (faces : List (List ℤ)) (h : ∀ f ∈ faces, 3 ≤ f.length) :
    (triangulate faces).length = (faces.map (fun f => f.length - 2)).sum := by
  induction faces with
  | nil => simp [triangulate]
  | cons f fs ih =>
    rw [triangulate, List.map_cons, List.flatten_cons, List.length_append,
      fanTriangles_length f (h f (by simp)),
      show (List.map fanTriangles fs).flatten = triangulate fs from rfl,
      ih (fun g hg => h g (by simp [hg]))]
    simp

/-- Claim C3: a face of exactly 3 indices is emitted unchanged as one
Triangle preserving vertex order; a face of N > 3 indices fans into the
triangles `(index[0], index[i], index[i+1])` for `i = 1 .. N−2` in that
order; and the end-to-end quad scenario loads as 4 vertices plus one quad
face and triangulates to exactly `(0,1,2)` and `(0,2,3)`. -/
theorem spec_C3 :
    (∀ a b c : ℤ, fanTriangles [a, b, c] = [(a, b, c)]) ∧
    (∀ face : List ℤ, 3 < face.length →
      fanTriangles face =
        (List.range' 1 (face.length - 2)).map
          (fun i => (face.getD 0 0, face.getD i 0, face.getD (i + 1) 0))) ∧
    load_obj quadFile = .ok (quadVertices, [[0, 1, 2, 3]]) ∧
    triangulate [[0, 1, 2, 3]] = [((0 : ℤ), (1 : ℤ), (2 : ℤ)), (0, 2, 3)] :=
  ⟨fanTriangles_three, fanTriangles_fan, by decide, by decide⟩

/-- Witness for C3: the general fan shape applied to the concrete quad
face. -/
theorem spec_C3_witness :
    fanTriangles [5, 6, 7] = [((5 : ℤ), 6, 7)] ∧
    3 < ([0, 1, 2, 3] : List ℤ).length ∧
    fanTriangles ([0, 1, 2, 3] : List ℤ) =
      (List.range' 1 (([0, 1, 2, 3] : List ℤ).length - 2)).map
        (fun i => (([0, 1, 2, 3] : List ℤ).getD 0 0, ([0, 1, 2, 3] : List ℤ).getD i 0,
          ([0, 1, 2, 3] : List ℤ).getD (i + 1) 0)) :=
  ⟨spec_C3.1 5 6 7, by decide, spec_C3.2.1 [0, 1, 2, 3] (by decide)⟩

/-- Claim C5: a mesh whose faces all have arity at least 3 triangulates to a
stream of length `Σ (arity − 2)`; a single face of N indices emits exactly
`N − 2` triangles, each sharing the face's first vertex index. -/
theorem spec_C5 :
    (∀ faces : List (List ℤ), (∀ f ∈ faces, 3 ≤ f.length) →
      (triangulate faces).length = (faces.map (fun f => f.length - 2)).sum) ∧
    ∀ face : List ℤ, 3 ≤ face.length →
      (fanTriangles face).length = face.length - 2 ∧
      ∀ t ∈ fanTriangles face, t.1 = face.getD 0 0 :=
  ⟨triangulate_length, fun face h => ⟨fanTriangles_length face h, fanTriangles_fst face⟩⟩

/-- Witness for C5: the length law at a concrete two-face mesh and a
concrete quad face. -/
theorem spec_C5_witness :
    (triangulate [[0, 1, 2], [0, 1, 2, 3, 4]]).length =
      (([[0, 1, 2], [0, 1, 2, 3, 4]] : List (List ℤ)).map (fun f => f.length - 2)).sum ∧
    (fanTriangles [3, 4, 5, 6]).length = ([3, 4, 5, 6] : List ℤ).length - 2 :=
  ⟨spec_C5.1 [[0, 1, 2], [0, 1, 2, 3, 4]] (by decide),
    (spec_C5.2 [3, 4, 5, 6] (by decide)).1⟩

/-- Claim C9: a face with fewer than 3 indices emits zero triangles and
raises no error — it is silently dropped from the triangle stream and from
the compiled vertex stream. -/
theorem spec_C9 (vs : List (List ℚ)) (face : List ℤ) (rest : List (List ℤ))
    (h : face.length < 3) :
    fanTriangles face = [] ∧
    emitFace vs face = .ok [] ∧
    compile_display_list vs (face :: rest) = compile_display_list vs rest := by
  have h3 : face.length ≠ 3 := by omega
  have h0 : face.length - 2 = 0 := by omega
  have hf : fanTriangles face = [] := by
    rw [fanTriangles, if_neg h3, h0]
    rfl
  have he : emitFace vs face = .ok [] := by
    rw [emitFace, if_neg h3, h0]
    rfl
  refine ⟨hf, he, ?_⟩
  rw [compile_display_list, compile_display_list, exMapM, he]
  cases hr : exMapM (emitFace vs) rest <;>
    simp [hr, bind_error, bind_ok, map_error, map_ok]

/-- Witness for C9: a two-index face contributes nothing and no error. -/
theorem spec_C9_witness :
    ([5, -7] : List ℤ).length < 3 ∧
    fanTriangles [5, -7] = [] ∧
    emitFace [] [5, -7] = .ok [] ∧
    compile_display_list [] [[5, -7]] = compile_display_list [] [] :=
  ⟨by decide, (spec_C9 [] [5, -7] [] (by decide)).1, (spec_C9 [] [5, -7] [] (by decide)).2.1,
    (spec_C9 [] [5, -7] [] (by decide)).2.2⟩

/-- A line recognized as a vertex line is not also recognized as a face
line. -/
theorem startsWith2_v_not_f (l : Line) (h : startsWith2 l 'v' ' ') :
    ¬ startsWith2 l 'f' ' ' := by
  match l with
  | [] => simp [startsWith2] at h
  | [_] => simp [startsWith2] at h
  | a :: b :: rest =>
    simp only [startsWith2, Bool.and_eq_true, beq_iff_eq] at h ⊢
    rintro ⟨rfl, -⟩
    exact absurd h.1 (by decide)

/-- The loader produces exactly one vertex per `v` line and one face per
`f` line. -/
theorem load_obj_counts (lines : List Line) :
    ∀ (vs : List (List ℚ)) (fs : List (List ℤ)),
      load_obj lines = .ok (vs, fs) →
      vs.length = lines.countP (fun l => startsWith2 l 'v' ' ') ∧
      fs.length = lines.countP (fun l => startsWith2 l 'f' ' ') := by
  induction lines with
  | nil =>
    intro vs fs h
    rw [load_obj] at h
    obtain ⟨rfl, rfl⟩ := Prod.mk.injEq .. ▸ (Except.ok.injEq _ _ ▸ h :
      (([], []) : List (List ℚ) × List (List ℤ)) = (vs, fs))
    simp
  | cons l rest ih =>
    intro vs fs h
    by_cases hv : startsWith2 l 'v' ' '
    · rw [load_obj, if_pos hv] at h
      cases hpv : parseVertex (words l) with
      | error e => rw [hpv, bind_error] at h; exact absurd h (by simp)
      | ok v =>
        rw [hpv, bind_ok] at h
        cases hr : load_obj rest with
        | error e => rw [hr, bind_error] at h; exact absurd h (by simp)
        | ok vf =>
          rw [hr, bind_ok] at h
          obtain ⟨vs', fs'⟩ := vf
          simp only [pure, Except.pure, Except.ok.injEq, Prod.mk.injEq] at h
          obtain ⟨⟨h1, h2⟩⟩ := And.intro h trivial
          obtain ⟨ihv, ihf⟩ := ih vs' fs' hr
          rw [List.countP_cons, List.countP_cons, ← h1, ← h2]
          have hf : startsWith2 l 'f' ' ' = false :=
            Bool.eq_false_iff.mpr (startsWith2_v_not_f l hv)
          simp [hv, hf, ihv, ihf]
    · by_cases hfl : startsWith2 l 'f' ' '
      · rw [load_obj, if_neg hv, if_pos hfl] at h
        cases hpf : parseFace (words l) with
        | error e => rw [hpf, bind_error] at h; exact absurd h (by simp)
        | ok f =>
          rw [hpf, bind_ok] at h
          cases hr : load_obj rest with
          | error e => rw [hr, bind_error] at h; exact absurd h (by simp)
          | ok vf =>
            rw [hr, bind_ok] at h
            obtain ⟨vs', fs'⟩ := vf
            simp only [pure, Except.pure, Except.ok.injEq, Prod.mk.injEq] at h
            obtain ⟨h1, h2⟩ := h
            obtain ⟨ihv, ihf⟩ := ih vs' fs' hr
            rw [List.countP_cons, List.countP_cons, ← h1, ← h2]
            have hvf : startsWith2 l 'v' ' ' = false := Bool.eq_false_iff.mpr hv
            simp [hvf, hfl, ihv, ihf]
      · rw [load_obj, if_neg hv, if_neg hfl] at h
        obtain ⟨ihv, ihf⟩ := ih vs fs h
        rw [List.countP_cons, List.countP_cons]
        have hvf : startsWith2 l 'v' ' ' = false := Bool.eq_false_iff.mpr hv
        have hff : startsWith2 l 'f' ' ' = false := Bool.eq_false_iff.mpr hfl
        simp [hvf, hff, ihv, ihf]

/-- Lines that are neither vertex nor face lines are skipped without any
effect on the result. -/
theorem load_obj_skip (l : Line) (lines : List Line)
    (hv : ¬ startsWith2 l 'v' ' ') (hf : ¬ startsWith2 l 'f' ' ') :
    load_obj (l :: lines) = load_obj lines := by
  rw [load_obj, if_neg hv, if_neg hf]

/-- `takeWhile` of the not-a-slash predicate keeps exactly a digit prefix:
everything after the first `/` is cut off, and a slash-free digit string is
kept whole. -/
theorem takeWhile_digits (tl : List Char) :
    ∀ ds : List Char, (∀ c ∈ ds, c.isDigit) →
      (ds ++ '/' :: tl).takeWhile (· != '/') = ds ∧ ds.takeWhile (· != '/') = ds
  | [], _ => by simp
  | c :: ds, h => by
    have hcd : c.isDigit := h c (by simp)
    have hc : (c != '/') = true := by
      rcases eq_or_ne c '/' with rfl | hne
      · exact absurd hcd (by decide)
      · simp [hne]
    have ih := takeWhile_digits tl ds (fun c' hc' => h c' (by simp [hc']))
    constructor <;> simp [List.takeWhile_cons, hc, ih.1, ih.2]

/-- A digit string parses as an integer with its numeric value. -/
theorem pyIntZ_digits (ds : List Char) (h : allDigits ds) :
    pyIntZ? ds = some ((natOfDigits ds : ℤ)) := by
  match ds with
  | [] => simp [allDigits] at h
  | c :: ds' =>
    have hcd : c.isDigit := by
      simp only [allDigits, Bool.and_eq_true, List.all_cons] at h
      exact h.2.1
    have hc1 : c ≠ '-' := by rintro rfl; exact absurd hcd (by decide)
    have hc2 : c ≠ '+' := by rintro rfl; exact absurd hcd (by decide)
    rw [pyIntZ?]
    rw [if_neg hc1, if_neg hc2, if_pos h]

/-- An index descriptor made of digits, with or without a `/`-separated
tail, parses to its 1-based value minus one; the tail is ignored. -/
theorem parseFaceIndex_split (ds tl : List Char) (h : allDigits ds) :
    parseFaceIndex (ds ++ '/' :: tl) = .ok ((natOfDigits ds : ℤ) - 1) ∧
    parseFaceIndex ds = .ok ((natOfDigits ds : ℤ) - 1) := by
  have hds : ∀ c ∈ ds, c.isDigit := by
    simp only [allDigits, Bool.and_eq_true, List.all_eq_true] at h
    exact fun c hc => h.2 c hc
  obtain ⟨h1, h2⟩ := takeWhile_digits tl ds hds
  constructor <;> rw [parseFaceIndex]
  · rw [h1, pyIntZ_digits ds h]
  · rw [h2, pyIntZ_digits ds h]

/-- Claim C8: for well-formed input the loader returns one vertex per `v`
line and one face per `f` line; any other line is skipped without error;
and each face index descriptor is parsed from the portion before the first
`/`, as a 1-based integer converted to 0-based by subtracting one. -/
theorem spec_C8 :
    (∀ (lines : List Line) (vs : List (List ℚ)) (fs : List (List ℤ)),
      load_obj lines = .ok (vs, fs) →
      vs.length = lines.countP (fun l => startsWith2 l 'v' ' ') ∧
      fs.length = lines.countP (fun l => startsWith2 l 'f' ' ')) ∧
    (∀ (l : Line) (lines : List Line),
      ¬ startsWith2 l 'v' ' ' → ¬ startsWith2 l 'f' ' ' →
      load_obj (l :: lines) = load_obj lines) ∧
    (∀ ds tl : List Char, allDigits ds →
      parseFaceIndex (ds ++ '/' :: tl) = .ok ((natOfDigits ds : ℤ) - 1) ∧
      parseFaceIndex ds = .ok ((natOfDigits ds : ℤ) - 1)) :=
  ⟨load_obj_counts, load_obj_skip, parseFaceIndex_split⟩

/-- Witness for C8: the counting laws and skipping law at a concrete file,
and descriptor parsing for `4/7`. -/
theorem spec_C8_witness :
    load_obj demoFile = .ok (demoVs, demoFs) ∧
    demoVs.length = demoFile.countP (fun l => startsWith2 l 'v' ' ') ∧
    demoFs.length = demoFile.countP (fun l => startsWith2 l 'f' ' ') ∧
    load_obj (("# note").toList :: demoFile) = load_obj demoFile ∧
    parseFaceIndex (['4'] ++ '/' :: ['7']) = .ok ((natOfDigits ['4'] : ℤ) - 1) :=
  ⟨by decide, (spec_C8.1 demoFile demoVs demoFs (by decide)).1,
    (spec_C8.1 demoFile demoVs demoFs (by decide)).2,
    spec_C8.2.1 (("# note").toList) demoFile (by decide) (by decide),
    (spec_C8.2.2 ['4'] ['7'] (by decide)).1⟩

/-- If every element either converts or raises the error `e`, and some
element of the list raises, the whole effectful map raises `e` (the first
raising element wins, and all raise the same `e`). -/
theorem exMapM_error {α β : Type} (f : α → Except PyError β) (e : PyError)
    (hf : ∀ x, (∃ y, f x = .ok y) ∨ f x = .error e) :
    ∀ l : List α, (∃ x ∈ l, f x = .error e) → exMapM f l = .error e := by
  intro l
  induction l with
  | nil => rintro ⟨x, hx, -⟩; simp at hx
  | cons a l ih =>
    rintro ⟨x, hx, hxe⟩
    rcases hf a with ⟨y, hy⟩ | ha
    · have hxl : x ∈ l := by
        rcases List.mem_cons.mp hx with rfl | h'
        · rw [hxe] at hy; exact absurd hy (by simp)
        · exact h'
      rw [exMapM, hy, bind_ok, ih ⟨x, hxl, hxe⟩, bind_error]
    · rw [exMapM, ha, bind_error]

/-- Each field conversion of a vertex line either yields a rational or
raises `ValueError`. -/
theorem vertexField_ok_or (p : List Char) :
    (∃ q, (match pyFloatQ? p with
      | some q => .ok q
      | none => .error .valueError : Except PyError ℚ) = .ok q) ∨
    (match pyFloatQ? p with
      | some q => .ok q
      | none => .error .valueError : Except PyError ℚ) = .error .valueError := by
  cases h : pyFloatQ? p <;> simp [h]

/-- Counterexample to claim C2 as stated: the vertex line `v 1 2` has only
two numeric fields, yet the loader succeeds — it returns the two-coordinate
vertex `[1, 2]` and raises nothing. -/
theorem spec_C2_cex :
    load_obj [("v 1 2").toList] = .ok ([[1, 2]], []) ∧
    load_obj [("v 1 2").toList] ≠ .error .valueError ∧
    load_obj [("v 1 2").toList] ≠ .error .indexError := by
  refine ⟨by decide, by decide, by decide⟩

/-- Claim C2, amended: a vertex line among whose first three fields one does
not parse as a float makes the loader fail with `ValueError` (no line
number is carried); but a vertex line with fewer than 3 numeric fields is
not an error — `v 1 2` loads as the two-coordinate vertex `[1, 2]`. -/
theorem spec_C2_amended :
    load_obj [("v 1 2").toList] = .ok ([[1, 2]], []) ∧
    load_obj [("v 1 abc").toList] = .error .valueError ∧
    (∀ (parts : List (List Char)) (p : List Char), p ∈ (parts.drop 1).take 3 →
      pyFloatQ? p = none → parseVertex parts = .error .valueError) ∧
    (∀ (line : Line) (rest : List Line), startsWith2 line 'v' ' ' →
      parseVertex (words line) = .error .valueError →
      load_obj (line :: rest) = .error .valueError) := by
  refine ⟨by decide, by decide, ?_, ?_⟩
  · intro parts p hp hnone
    rw [parseVertex]
    exact exMapM_error _ .valueError vertexField_ok_or _ ⟨p, hp, by simp [hnone]⟩
  · intro line rest hv hpv
    rw [load_obj, if_pos hv, hpv, bind_error]

/-- Witness for C2 (amended): the failing field `abc` makes both the vertex
parse and the whole load fail with `ValueError`. -/
theorem spec_C2_amended_witness :
    parseVertex [['v'], ['1'], ['a', 'b', 'c']] = .error .valueError ∧
    load_obj [("v 1 abc").toList] = .error .valueError :=
  ⟨spec_C2_amended.2.2.1 [['v'], ['1'], ['a', 'b', 'c']] ['a', 'b', 'c'] (by decide) (by decide),
    spec_C2_amended.2.2.2 (("v 1 abc").toList) [] (by decide) (by decide)⟩

/-- An index outside `[−length, length)` fails Python list indexing with
`IndexError`. -/
theorem lookupVertex_out (vs : List (List ℚ)) (i : ℤ)
    (h : i < -(vs.length : ℤ) ∨ (vs.length : ℤ) ≤ i) :
    lookupVertex vs i = .error .indexError := by
  have hpg : pyGet vs i = none := by
    rw [pyGet]
    rcases h with h | h
    · rw [if_pos (show i < 0 by omega), if_neg (show ¬ (0 : ℤ) ≤ (vs.length : ℤ) + i by omega)]
    · rw [if_neg (show ¬ i < 0 by omega), if_pos (show (0 : ℤ) ≤ i by omega)]
      exact List.getElem?_eq_none (by omega)
  rw [lookupVertex, hpg]

/-- A vertex lookup either returns a vertex or raises `IndexError`. -/
theorem lookupVertex_ok_or (vs : List (List ℚ)) (i : ℤ) :
    (∃ v, lookupVertex vs i = .ok v) ∨ lookupVertex vs i = .error .indexError := by
  rw [lookupVertex]
  cases pyGet vs i <;> simp

/-- Resolving one triangle either yields its three vertices or raises
`IndexError`. -/
theorem resolveTri_ok_or (vs : List (List ℚ)) (t : Tri) :
    (∃ w, resolveTri vs t = .ok w) ∨ resolveTri vs t = .error .indexError := by
  rcases lookupVertex_ok_or vs t.1 with ⟨a, ha⟩ | ha
  · rcases lookupVertex_ok_or vs t.2.1 with ⟨b, hb⟩ | hb
    · rcases lookupVertex_ok_or vs t.2.2 with ⟨c, hc⟩ | hc
      · exact .inl ⟨[a, b, c], by rw [resolveTri, ha, bind_ok, hb, bind_ok, hc, bind_ok]; rfl⟩
      · exact .inr (by rw [resolveTri, ha, bind_ok, hb, bind_ok, hc, bind_error])
    · exact .inr (by rw [resolveTri, ha, bind_ok, hb, bind_error])
  · exact .inr (by rw [resolveTri, ha, bind_error])

/-- If any of a triangle's three lookups raises `IndexError`, resolving the
triangle raises `IndexError`. -/
theorem resolveTri_err (vs : List (List ℚ)) (t : Tri)
    (h : lookupVertex vs t.1 = .error .indexError ∨
      lookupVertex vs t.2.1 = .error .indexError ∨
      lookupVertex vs t.2.2 = .error .indexError) :
    resolveTri vs t = .error .indexError := by
  rcases lookupVertex_ok_or vs t.1 with ⟨a, ha⟩ | ha
  · rcases lookupVertex_ok_or vs t.2.1 with ⟨b, hb⟩ | hb
    · rcases lookupVertex_ok_or vs t.2.2 with ⟨c, hc⟩ | hc
      · exfalso
        rcases h with h | h | h
        · rw [h] at ha; exact absurd ha (by simp)
        · rw [h] at hb; exact absurd hb (by simp)
        · rw [h] at hc; exact absurd hc (by simp)
      · rw [resolveTri, ha, bind_ok, hb, bind_ok, hc, bind_error]
    · rw [resolveTri, ha, bind_ok, hb, bind_error]
  · rw [resolveTri, ha, bind_error]

/-- A face of at least three indices containing an out-of-range index makes
the emission of its vertex stream raise `IndexError`: the fan loop touches
every position of the face, so the bad index is looked up. -/
theorem emitFace_err (vs : List (List ℚ)) (face : List ℤ) (h3 : 3 ≤ face.length)
    (hout : ∃ i ∈ face, i < -(vs.length : ℤ) ∨ (vs.length : ℤ) ≤ i) :
    emitFace vs face = .error .indexError := by
  obtain ⟨idx, hidx, hrange⟩ := hout
  obtain ⟨j, hj, hje⟩ := List.mem_iff_getElem.mp hidx
  have herr : lookupVertex vs (face.getD j 0) = .error .indexError := by
    rw [List.getD_eq_getElem face 0 hj, hje]
    exact lookupVertex_out vs idx hrange
  by_cases hlen : face.length = 3
  · rw [emitFace, if_pos hlen]
    refine exMapM_error _ .indexError (lookupVertex_ok_or vs) face ⟨face.getD j 0, ?_, herr⟩
    rw [List.getD_eq_getElem face 0 hj]
    exact List.getElem_mem hj
  · have hlen4 : 4 ≤ face.length := by omega
    rw [emitFace, if_neg hlen]
    rw [exMapM_error _ .indexError
      (fun i => resolveTri_ok_or vs (face.getD 0 0, face.getD i 0, face.getD (i + 1) 0))
      (List.range' 1 (face.length - 2)) ?_, map_error]
    rcases Nat.lt_or_ge j 1 with hj0 | hj1
    · have hj' : j = 0 := by omega
      refine ⟨1, List.mem_range'_1.mpr (by omega), ?_⟩
      refine resolveTri_err vs _ (.inl ?_)
      rw [← hj']
      exact herr
    · rcases Nat.lt_or_ge j (face.length - 1) with hjmid | hjlast
      · refine ⟨j, List.mem_range'_1.mpr (by omega), ?_⟩
        exact resolveTri_err vs _ (.inr (.inl herr))
      · have hj' : j = face.length - 1 := by omega
        refine ⟨face.length - 2, List.mem_range'_1.mpr (by omega), ?_⟩
        refine resolveTri_err vs _ (.inr (.inr ?_))
        show lookupVertex vs (face.getD (face.length - 2 + 1) 0) = _
        rw [show face.length - 2 + 1 = j by omega]
        exact herr

/-- Counterexample to claim C1 as stated: with four vertices, the face line
`f 1 2 99` does not make the loader fail — `load_obj` returns the face
`[0, 1, 98]` successfully, so the out-of-range index does reach the
triangulation stage. -/
theorem spec_C1_cex :
    load_obj badFile = .ok (quadVertices, [[0, 1, 98]]) ∧
    load_obj badFile ≠ .error .valueError ∧
    load_obj badFile ≠ .error .indexError := by
  refine ⟨by decide, by decide, by decide⟩

/-- Claim C1, amended: the loader performs no range validation, so a face
with an out-of-range resolved index loads successfully and reaches the
triangulation stage; the failure surfaces only at compile time — any face
of at least 3 indices containing an index outside `[−vertexCount,
vertexCount)` makes `compile_display_list` raise `IndexError` at the vertex
lookup. -/
theorem spec_C1_amended :
    load_obj badFile = .ok (quadVertices, [[0, 1, 98]]) ∧
    compile_display_list quadVertices [[0, 1, 98]] = .error .indexError ∧
    (∀ (vs : List (List ℚ)) (face : List ℤ) (rest : List (List ℤ)),
      3 ≤ face.length →
      (∃ i ∈ face, i < -(vs.length : ℤ) ∨ (vs.length : ℤ) ≤ i) →
      emitFace vs face = .error .indexError ∧
      compile_display_list vs (face :: rest) = .error .indexError) := by
  refine ⟨by decide, by decide, ?_⟩
  intro vs face rest h3 hout
  have he := emitFace_err vs face h3 hout
  refine ⟨he, ?_⟩
  rw [compile_display_list, exMapM, he, bind_error, map_error]

/-- Witness for C1 (amended): the out-of-range face `[0, 1, 98]` of the
`f 1 2 99` scenario fails at emission and at compile. -/
theorem spec_C1_amended_witness :
    emitFace quadVertices [0, 1, 98] = .error .indexError ∧
    compile_display_list quadVertices [[0, 1, 98]] = .error .indexError :=
  ⟨(spec_C1_amended.2.2 quadVertices [0, 1, 98] [] (by decide) (by decide)).1,
    (spec_C1_amended.2.2 quadVertices [0, 1, 98] [] (by decide) (by decide)).2⟩

/-- A negative index within `[−length, −1]` resolves, under Python's
negative-indexing rule, to the element `length + index` counted from the
front — that is, counted backwards from the end of the list. -/
theorem lookupVertex_neg (vs : List (List ℚ)) (k : ℤ)
    (h1 : -(vs.length : ℤ) ≤ k) (h2 : k < 0) :
    lookupVertex vs k = .ok (vs.getD ((vs.length : ℤ) + k).toNat []) ∧
    ((vs.length : ℤ) + k).toNat < vs.length := by
  have hjlt : ((vs.length : ℤ) + k).toNat < vs.length := by omega
  refine ⟨?_, hjlt⟩
  have hpg : pyGet vs k = some (vs.getD ((vs.length : ℤ) + k).toNat []) := by
    rw [pyGet]
    rw [if_pos h2, if_pos (show (0 : ℤ) ≤ (vs.length : ℤ) + k by omega)]
    rw [List.getElem?_eq_getElem hjlt, List.getD_eq_getElem vs [] hjlt]
  rw [lookupVertex, hpg]

/-- Claim C10: a face index descriptor `i` with `1 − vertexCount ≤ i ≤ 0` is
stored as the negative index `i − 1`, which both load and triangulation
silently accept: it resolves to the vertex `vertexCount + (i − 1)` counted
from the end, a descriptor of `0` resolving to the last vertex.  The
concrete file with three vertices and face `f 1 2 0` loads and compiles
without error, its third emitted vertex being the last vertex of the
list. -/
theorem spec_C10 :
    (∀ (vs : List (List ℚ)) (i : ℤ), 1 - (vs.length : ℤ) ≤ i → i ≤ 0 →
      lookupVertex vs (i - 1) = .ok (vs.getD ((vs.length : ℤ) + (i - 1)).toNat []) ∧
      ((vs.length : ℤ) + (i - 1)).toNat < vs.length) ∧
    (∀ vs : List (List ℚ), 0 < vs.length →
      lookupVertex vs (-1) = .ok (vs.getD (vs.length - 1) [])) ∧
    load_obj negFile = .ok (negVertices, [[0, 1, -1]]) ∧
    compile_display_list negVertices [[0, 1, -1]] = .ok [[0, 0, 0], [1, 0, 0], [2, 0, 0]] ∧
    negVertices.getLast? = some [2, 0, 0] := by
  refine ⟨?_, ?_, by decide, by decide, by decide⟩
  · intro vs i hlo hhi
    exact lookupVertex_neg vs (i - 1) (by omega) (by omega)
  · intro vs hpos
    have h := (lookupVertex_neg vs (-1) (by omega) (by omega)).1
    have hidx : ((vs.length : ℤ) + -1).toNat = vs.length - 1 := by omega
    rw [h, hidx]

/-- Witness for C10: the descriptor `0` of the concrete file, stored as
index `−1`, resolves to the last of the three vertices. -/
theorem spec_C10_witness :
    lookupVertex negVertices (0 - 1) =
      .ok (negVertices.getD ((negVertices.length : ℤ) + (0 - 1)).toNat []) ∧
    lookupVertex negVertices (-1) = .ok (negVertices.getD (negVertices.length - 1) []) :=
  ⟨(spec_C10.1 negVertices 0 (by decide) (by decide)).1,
    spec_C10.2.1 negVertices (by decide)⟩

end ObjViewer
